import Mathlib

/-!
Verification of the frontmatter-normalizing scripts
`scripts/add-missing-titles.py` and `scripts/fix-title-quotes.py`.

The Python code is shallowly embedded: documents are Lean `String`s
(logically lists of characters), Python `str.split`, `str.join`,
`str.strip`, `str.capitalize` and the two regular expressions used by the
scripts are embedded as executable functions over `List Char`.
Character-class functions (`\s`, `str.capitalize`, `str.lower`) are
modelled on the ASCII range, which is the range exercised by the scripts'
documents.
-/

/-- The character classes matched by Python's `\s` and stripped by
`str.strip()` with no argument, restricted to ASCII:
space, tab, newline, carriage return, vertical tab, form feed. -/
def pyIsSpace (c : Char) : Bool :=
  c == ' ' || c == '\t' || c == '\n' || c == '\r' || c == '\x0b' || c == '\x0c'

/-- Python `str.strip()`: remove leading and trailing whitespace. -/
def pyStrip (l : List Char) : List Char :=
  ((l.dropWhile pyIsSpace).reverse.dropWhile pyIsSpace).reverse

/-- Python `str.lstrip()`: remove leading whitespace. -/
def pyLStrip (s : String) : String :=
  String.mk (s.data.dropWhile pyIsSpace)

/-- The line separator predicate: `str.split` is called with `'\n'`. -/
def isNl (c : Char) : Bool := c == '\n'

/-- The separator class of `re.split` in `generate_title_from_path`:
the regex is a character class of `-` and `_`. -/
def isSepChar (c : Char) : Bool := c == '-' || c == '_'

/-- A double or single quote, the class excluded by the quoting regex. -/
def isQuoteChar (c : Char) : Bool := c == '"' || c == '\x27'

/-- Boolean prefix test on character lists (used for `startswith` and for
the anchored regex `^title:`). -/
def listStartsWith : List Char → List Char → Bool
  | [], _ => true
  | _ :: _, [] => false
  | p :: ps, c :: cs => p == c && listStartsWith ps cs

/-- Python `s.split(sep)` for a one-character separator, keeping empty
pieces: splitting at every character satisfying `p`. -/
def splitOnPred (p : Char → Bool) : List Char → List (List Char)
  | [] => [[]]
  | c :: cs =>
    if p c then [] :: splitOnPred p cs
    else
      match splitOnPred p cs with
      | l :: ls => (c :: l) :: ls
      | [] => [[c]]

/-- Python `sep.join(pieces)` for a one-character separator. -/
def joinWith (sep : Char) : List (List Char) → List Char
  | [] => []
  | [l] => l
  | l :: ls => l ++ sep :: joinWith sep ls

/-- The lines of a document, as Python's `content.split('\n')` produces
them (each line is the `data` of the corresponding Python string). -/
def docLines (content : String) : List (List Char) :=
  splitOnPred isNl content.data

/-- The two attributes of a `pathlib.Path` that
`generate_title_from_path` reads: `stem` (final component without its
extension) and `parent.name`. Path manipulation itself is out of the
scripts' logic, so a path is embedded by these two strings. -/
structure FPath where
  parentName : String
  stem : String
deriving DecidableEq, Repr

/-- Python `str.lower` on one character, ASCII range: the upper-case
letters 65..90 are shifted to 97..122, everything else is unchanged. -/
def asciiLowerChar (c : Char) : Char :=
  if 65 ≤ c.toNat ∧ c.toNat ≤ 90 then Char.ofNat (c.toNat + 32) else c

/-- Python `str.upper` on one character, ASCII range: the lower-case
letters 97..122 are shifted to 65..90, everything else is unchanged.
(For ASCII, Python's title-casing of a single character agrees with
upper-casing.) -/
def asciiUpperChar (c : Char) : Char :=
  if 97 ≤ c.toNat ∧ c.toNat ≤ 122 then Char.ofNat (c.toNat - 32) else c

/-- Python `str.capitalize()`: first character upper-cased, all remaining
characters lower-cased. -/
def pyCapitalize (w : List Char) : List Char :=
  match w with
  | [] => []
  | c :: cs => asciiUpperChar c :: cs.map asciiLowerChar

/-- The basename chosen by `generate_title_from_path`: the path's stem,
or the parent directory's name when the stem is `index`. -/
def effectiveBasename (p : FPath) : String :=
  if p.stem = "index" then p.parentName else p.stem

/-- `generate_title_from_path` of add-missing-titles.py: split the
basename on `-` and `_`, capitalize each word, join with single spaces. -/
def generate_title_from_path (p : FPath) : String :=
  String.mk (joinWith ' ' ((splitOnPred isSepChar (effectiveBasename p).data).map pyCapitalize))

/-- One line against the H1 regex `^#\s+(.+)$` of `extract_h1`, returning
`group(1).strip()` on a match.  A line matches when `#` is followed by at
least one whitespace character and at least one further character; the
greedy `\s+` leaves `group(1)` as the text after the whitespace run, or a
single whitespace character when nothing follows the run, so after
`strip()` the result is the stripped text after the whitespace run. -/
def h1_match (l : List Char) : Option (List Char) :=
  match l with
  | '#' :: c :: rest =>
    if pyIsSpace c && !rest.isEmpty then
      some (pyStrip ((c :: rest).dropWhile pyIsSpace))
    else none
  | _ => none

/-- `extract_h1` of add-missing-titles.py: the first line of the whole
content matching the H1 regex, stripped. -/
def extract_h1 (content : String) : Option (List Char) :=
  (docLines content).findSome? h1_match

/-- The title resolution of `add_title_to_file` (lines 63-66): the H1 if
present and non-empty (Python's `if not title:` treats both `None` and
the empty string as missing), else the path-generated title. -/
def resolve_title (p : FPath) (content : String) : String :=
  match extract_h1 content with
  | some t => if t.isEmpty then generate_title_from_path p else String.mk t
  | none => generate_title_from_path p

/-- `has_frontmatter` of add-missing-titles.py:
`content.startswith('---\n')`. -/
def has_frontmatter (content : String) : Bool :=
  listStartsWith "---\n".data content.data

/-- The search loop of `extract_frontmatter`: scan lines for the first
one whose `strip()` is `---`, reporting its index; mirrors
`enumerate(lines[1:], 1)` when started at index 1. -/
def findClose : List (List Char) → Nat → Option Nat
  | [], _ => none
  | l :: ls, i => if pyStrip l == "---".data then some i else findClose ls (i + 1)

/-- `extract_frontmatter` of add-missing-titles.py: if the content starts
with the opening delimiter and a line stripping to `---` follows, return
the joined lines strictly between the delimiters and the joined lines
after the closing delimiter; otherwise empty frontmatter and the whole
content. -/
def extract_frontmatter (content : String) : String × String :=
  if has_frontmatter content then
    let lines := docLines content
    match findClose (lines.drop 1) 1 with
    | none => ("", content)
    | some end_idx =>
      (String.mk (joinWith '\n' ((lines.drop 1).take (end_idx - 1))),
       String.mk (joinWith '\n' (lines.drop (end_idx + 1))))
  else ("", content)

/-- The skip test of `add_title_to_file`:
`re.search(r'^title:', frontmatter, re.MULTILINE)`, i.e. some line of the
frontmatter begins with `title:`. -/
def hasTitleKey (frontmatter : String) : Bool :=
  (docLines frontmatter).any (fun l => listStartsWith "title:".data l)

/-- `add_title_to_file` of add-missing-titles.py as a pure transform on
the file's content: resolve the title, split the frontmatter, skip if a
`title:` line exists, otherwise prepend `title: <value>` to the
frontmatter and reassemble the document with the body's leading
whitespace stripped. The skip branch performs no write, so the content is
returned unchanged. -/
def add_title_to_file (p : FPath) (content : String) : String :=
  let title := resolve_title p content
  let fb := extract_frontmatter content
  if hasTitleKey fb.1 then content
  else
    let new_frontmatter :=
      if fb.1 ≠ "" then "title: " ++ title ++ "\n" ++ fb.1
      else "title: " ++ title
    "---\n" ++ new_frontmatter ++ "\n---\n" ++ pyLStrip fb.2

/-- The sub-pattern `.*:.*[^"\x27]$` of the quoting regex, applied to the
characters after the first `[^"\x27]` character: a colon somewhere before
the final character, and a final character that is not a quote. -/
def matchColonTail (s : List Char) : Bool :=
  s.dropLast.contains ':' &&
    (match s.getLast? with
     | some c => !isQuoteChar c
     | none => false)

/-- The sub-pattern `[^"\x27].*:.*[^"\x27]$`: a first non-quote
character followed by `matchColonTail`. -/
def matchValue : List Char → Bool
  | [] => false
  | c :: rest => !isQuoteChar c && matchColonTail rest

/-- The sub-pattern `\s*[^"\x27].*:.*[^"\x27]$` with backtracking: either
the value pattern matches here, or the head is whitespace and the pattern
matches further right. -/
def wsThenValue : List Char → Bool
  | [] => false
  | c :: rest => matchValue (c :: rest) || (pyIsSpace c && wsThenValue rest)

/-- The quoting regex `^title:\s+[^"\x27].*:.*[^"\x27]$` of
fix-title-quotes.py on one line: the literal `title:`, at least one
whitespace character, then the value pattern. -/
def title_colon_match (l : List Char) : Bool :=
  match l with
  | 't' :: 'i' :: 't' :: 'l' :: 'e' :: ':' :: c :: rest => pyIsSpace c && wsThenValue rest
  | _ => false

/-- `group(1)` of the value regex `^title:\s+(.+)$` applied to the
characters after `title:`: with the greedy `\s+`, the group is the text
after the maximal whitespace run when non-empty; when the rest is all
whitespace the run gives one character back to the group, which needs at
least two characters after `title:` in total. -/
def extract_title_value (r : List Char) : Option (List Char) :=
  match r with
  | [] => none
  | c :: rest =>
    if pyIsSpace c then
      let t := (c :: rest).dropWhile pyIsSpace
      if t.isEmpty then
        match rest.getLast? with
        | some d => some [d]
        | none => none
      else some t
    else none

/-- The per-line body of the loop in `fix_title_in_file`: on a line
matching the quoting regex, extract the value; if it does not already
start with a quote, produce the replacement line `title: "<value>"`.
`none` means the loop moves on to the next line. -/
def fix_line (l : List Char) : Option (List Char) :=
  if title_colon_match l then
    match l with
    | 't' :: 'i' :: 't' :: 'l' :: 'e' :: ':' :: r =>
      match extract_title_value r with
      | some v =>
        match v with
        | c :: _ =>
          if isQuoteChar c then none
          else some ("title: \"".data ++ v ++ ['"'])
        | [] => none
      | none => none
    | _ => none
  else none

/-- The scan of `fix_title_in_file`: replace the first fixable line and
stop (the `break`), returning the new lines and the `modified` flag. -/
def fix_linesAux : List (List Char) → List (List Char) × Bool
  | [] => ([], false)
  | l :: ls =>
    match fix_line l with
    | some l2 => (l2 :: ls, true)
    | none =>
      let r := fix_linesAux ls
      (l :: r.1, r.2)

/-- `fix_title_in_file` of fix-title-quotes.py as a pure transform: split
into lines, fix the first fixable line, and rejoin; when nothing was
modified the file is not rewritten, so the content is unchanged. -/
def fix_title_in_file (content : String) : String :=
  let r := fix_linesAux (docLines content)
  if r.2 then String.mk (joinWith '\n' r.1) else content

/-- The `main()` loop of add-missing-titles.py over the already
discovered and non-excluded files, pairing each path with the result of
`read_text()` (`none` when reading raises, e.g. for undecodable bytes or
a vanished path). There is no exception handler in the loop, so a raising
file aborts it: the returned flag records the abort, and the returned
list holds the contents produced for the files processed before it. -/
def addTitlesBatch : List (FPath × Option String) → List String × Bool
  | [] => ([], false)
  | (_, none) :: _ => ([], true)
  | (p, some c) :: rest =>
    let r := addTitlesBatch rest
    (add_title_to_file p c :: r.1, r.2)

/-- The `main()` loop of fix-title-quotes.py over the discovered files,
with the same uncaught-exception behaviour as `addTitlesBatch`. -/
def fixTitlesBatch : List (Option String) → List String × Bool
  | [] => ([], false)
  | none :: _ => ([], true)
  | some c :: rest =>
    let r := fixTitlesBatch rest
    (fix_title_in_file c :: r.1, r.2)

/-- An ASCII upper-case letter. -/
def isAsciiUpper (c : Char) : Bool := decide (65 ≤ c.toNat ∧ c.toNat ≤ 90)

/-! ### Lemmas about splitting and joining -/

theorem splitOnPred_ne_nil (p : Char → Bool) (cs : List Char) : splitOnPred p cs ≠ [] := by
  induction cs with
  | nil => simp [splitOnPred]
  | cons c cs ih =>
    simp only [splitOnPred]
    split
    · simp
    · split
      · simp
      · simp

theorem joinWith_cons_cons (sep : Char) (a b : List Char) (ls : List (List Char)) :
    joinWith sep (a :: b :: ls) = a ++ sep :: joinWith sep (b :: ls) := rfl

theorem joinWith_cons_head (sep c : Char) (l : List Char) (ls : List (List Char)) :
    joinWith sep ((c :: l) :: ls) = c :: joinWith sep (l :: ls) := by
  cases ls <;> rfl

theorem splitOnPred_append_sep (p : Char → Bool) {sep : Char} (hsep : p sep = true)
    (a b : List Char) :
    splitOnPred p (a ++ sep :: b) = splitOnPred p a ++ splitOnPred p b := by
  induction a with
  | nil => simp [splitOnPred, hsep]
  | cons c a ih =>
    obtain ⟨l, ls, hl⟩ := List.exists_cons_of_ne_nil (splitOnPred_ne_nil p a)
    by_cases hc : p c
    · simp [splitOnPred, hc, ih]
    · simp [splitOnPred, hc, ih, hl]

theorem splitOnPred_no_sep (p : Char → Bool) (a : List Char) (h : ∀ c ∈ a, p c = false) :
    splitOnPred p a = [a] := by
  induction a with
  | nil => rfl
  | cons c a ih =>
    have hc : p c = false := h c (by simp)
    have ha : splitOnPred p a = [a] := ih (fun x hx => h x (by simp [hx]))
    simp [splitOnPred, hc, ha]

theorem joinWith_splitOnPred (sep : Char) (p : Char → Bool) (hp : ∀ c, p c = (c == sep))
    (cs : List Char) : joinWith sep (splitOnPred p cs) = cs := by
  induction cs with
  | nil => rfl
  | cons c cs ih =>
    obtain ⟨l, ls, hl⟩ := List.exists_cons_of_ne_nil (splitOnPred_ne_nil p cs)
    by_cases hc : c = sep
    · have hpc : p c = true := by rw [hp, hc]; exact beq_self_eq_true sep
      simp only [splitOnPred, hpc, if_true, hl]
      rw [show joinWith sep ([] :: l :: ls) = sep :: joinWith sep (l :: ls) from rfl]
      rw [← hl, ih, hc]
    · have hpc : p c = false := by rw [hp]; exact beq_eq_false_iff_ne.mpr hc
      simp only [splitOnPred, hpc, Bool.false_eq_true, if_false, hl]
      rw [joinWith_cons_head, ← hl, ih]

theorem splitOnPred_joinWith (sep : Char) (p : Char → Bool) (hp : ∀ c, p c = (c == sep))
    (L : List (List Char)) (hne : L ≠ []) (hfree : ∀ l ∈ L, ∀ c ∈ l, p c = false) :
    splitOnPred p (joinWith sep L) = L := by
  induction L with
  | nil => exact absurd rfl hne
  | cons l L ih =>
    cases L with
    | nil =>
      show splitOnPred p (joinWith sep [l]) = [l]
      rw [show joinWith sep [l] = l from rfl]
      exact splitOnPred_no_sep p l (hfree l (by simp))
    | cons l2 L2 =>
      rw [joinWith_cons_cons]
      have hsep : p sep = true := by rw [hp]; exact beq_self_eq_true sep
      rw [splitOnPred_append_sep p hsep]
      rw [splitOnPred_no_sep p l (hfree l (by simp))]
      rw [ih (by simp) (fun x hx c hc => hfree x (by simp [hx]) c hc)]
      rfl

theorem mem_splitOnPred_no_sep (p : Char → Bool) (cs : List Char) :
    ∀ l ∈ splitOnPred p cs, ∀ c ∈ l, p c = false := by
  induction cs with
  | nil =>
    intro l hl c hc
    simp [splitOnPred] at hl
    subst hl
    exact absurd hc (List.not_mem_nil c)
  | cons x cs ih =>
    intro l hl c hc
    by_cases hx : p x
    · simp only [splitOnPred, hx, if_true, List.mem_cons] at hl
      rcases hl with h1 | h2
      · subst h1; exact absurd hc (List.not_mem_nil c)
      · exact ih l h2 c hc
    · obtain ⟨l0, ls, he⟩ := List.exists_cons_of_ne_nil (splitOnPred_ne_nil p cs)
      simp only [splitOnPred, hx, Bool.false_eq_true, if_false, he, List.mem_cons] at hl
      rcases hl with h1 | h2
      · subst h1
        rcases List.mem_cons.mp hc with h3 | h4
        · subst h3; simpa using hx
        · exact ih l0 (by simp [he]) c h4
      · exact ih l (by simp [he, h2]) c hc

theorem splitOnPred_append_no_sep (p : Char → Bool) (a cs : List Char)
    (h : ∀ c ∈ a, p c = false) :
    ∃ hd tl, splitOnPred p cs = hd :: tl ∧ splitOnPred p (a ++ cs) = (a ++ hd) :: tl := by
  induction a with
  | nil =>
    obtain ⟨hd, tl, he⟩ := List.exists_cons_of_ne_nil (splitOnPred_ne_nil p cs)
    exact ⟨hd, tl, he, by simpa using he⟩
  | cons c a ih =>
    have hc : p c = false := h c (by simp)
    obtain ⟨hd, tl, h1, h2⟩ := ih (fun x hx => h x (by simp [hx]))
    exact ⟨hd, tl, h1, by simp [splitOnPred, hc, h2]⟩

/-! ### Lemmas about the auxiliary string functions -/

theorem listStartsWith_append (p t : List Char) : listStartsWith p (p ++ t) = true := by
  induction p with
  | nil => rfl
  | cons c p ih => simp [listStartsWith, ih]

theorem exists_of_listStartsWith {p l : List Char} (h : listStartsWith p l = true) :
    ∃ t, l = p ++ t := by
  induction p generalizing l with
  | nil => exact ⟨l, rfl⟩
  | cons x p ih =>
    cases l with
    | nil => simp [listStartsWith] at h
    | cons y l =>
      simp only [listStartsWith, Bool.and_eq_true, beq_iff_eq] at h
      obtain ⟨t, ht⟩ := ih h.2
      exact ⟨t, by simp [h.1, ht]⟩

theorem pyStrip_cons_not_space {c : Char} (l : List Char) (h : pyIsSpace c = false) :
    ∃ r, pyStrip (c :: l) = c :: r := by
  have h1 : (c :: l).dropWhile pyIsSpace = c :: l := by
    rw [List.dropWhile_cons, if_neg (by simp [h])]
  unfold pyStrip
  rw [h1, List.reverse_cons, List.dropWhile_append]
  by_cases h2 : (l.reverse.dropWhile pyIsSpace).isEmpty
  · refine ⟨[], ?_⟩
    simp [h2, List.dropWhile_cons, h]
  · refine ⟨(l.reverse.dropWhile pyIsSpace).reverse, ?_⟩
    simp [h2]

theorem pyStrip_title_ne_dashes (X : List Char) :
    pyStrip ('t' :: 'i' :: 't' :: 'l' :: 'e' :: ':' :: X) ≠ ('-' :: '-' :: '-' :: []) := by
  obtain ⟨r, hr⟩ := pyStrip_cons_not_space ('i' :: 't' :: 'l' :: 'e' :: ':' :: X)
    (show pyIsSpace 't' = false by decide)
  rw [hr]
  intro hcontra
  exact absurd (List.head_eq_of_cons_eq hcontra) (by decide)

/-! ### Lemmas about the closing-delimiter search -/

theorem findClose_le {ls : List (List Char)} {i e : Nat} (h : findClose ls i = some e) :
    i ≤ e := by
  induction ls generalizing i with
  | nil => simp [findClose] at h
  | cons l ls ih =>
    simp only [findClose] at h
    split at h
    · cases h; exact Nat.le_refl e
    · exact Nat.le_of_succ_le (ih h)

theorem findClose_of_none (ls : List (List Char)) (i : Nat)
    (h : ∀ l ∈ ls, pyStrip l ≠ "---".data) : findClose ls i = none := by
  induction ls generalizing i with
  | nil => rfl
  | cons l ls ih =>
    have h1 : (pyStrip l == "---".data) = false :=
      beq_eq_false_iff_ne.mpr (h l (by simp))
    simp only [findClose, h1, Bool.false_eq_true, if_false]
    exact ih (i + 1) (fun x hx => h x (by simp [hx]))

theorem findClose_found (A : List (List Char)) (x : List Char) (B : List (List Char)) (i : Nat)
    (hA : ∀ l ∈ A, pyStrip l ≠ "---".data) (hx : pyStrip x = "---".data) :
    findClose (A ++ x :: B) i = some (i + A.length) := by
  induction A generalizing i with
  | nil => simp [findClose, hx]
  | cons a A ih =>
    have h1 : (pyStrip a == "---".data) = false :=
      beq_eq_false_iff_ne.mpr (hA a (by simp))
    simp only [List.cons_append, findClose, h1, Bool.false_eq_true, if_false, List.append_eq]
    rw [ih (i + 1) (fun x hx2 => hA x (by simp [hx2]))]
    congr 1
    simp only [List.length_cons]
    omega

theorem findClose_exists (A : List (List Char)) (x : List Char) (B : List (List Char)) (i : Nat)
    (hx : pyStrip x = "---".data) :
    ∃ e, findClose (A ++ x :: B) i = some e ∧ i ≤ e := by
  induction A generalizing i with
  | nil => exact ⟨i, by simp [findClose, hx], Nat.le_refl i⟩
  | cons a A ih =>
    by_cases ha : pyStrip a == "---".data
    · exact ⟨i, by simp [findClose, ha], Nat.le_refl i⟩
    · obtain ⟨e, he, hle⟩ := ih (i + 1)
      refine ⟨e, ?_, by omega⟩
      simp only [List.cons_append, findClose, ha, Bool.false_eq_true, if_false, List.append_eq]
      exact he

/-! ### Lemmas about character casing -/

theorem isAsciiUpper_asciiLowerChar (c : Char) : isAsciiUpper (asciiLowerChar c) = false := by
  unfold asciiLowerChar isAsciiUpper
  by_cases h : 65 ≤ c.toNat ∧ c.toNat ≤ 90
  · rw [if_pos h]
    have h2 : (Char.ofNat (c.toNat + 32)).toNat = c.toNat + 32 := by
      unfold Char.ofNat
      rw [dif_pos (Or.inl (by omega))]
      rfl
    simp only [h2, decide_eq_false_iff_not]
    omega
  · rw [if_neg h]
    simp only [decide_eq_false_iff_not]
    exact h

theorem pyCapitalize_drop_one (w : List Char) :
    ∀ c ∈ (pyCapitalize w).drop 1, isAsciiUpper c = false := by
  cases w with
  | nil => intro c hc; simp [pyCapitalize] at hc
  | cons x cs =>
    intro c hc
    simp only [pyCapitalize, List.drop_one, List.tail_cons] at hc
    obtain ⟨d, _, hdc⟩ := List.mem_map.mp hc
    rw [← hdc]
    exact isAsciiUpper_asciiLowerChar d

/-! ### Membership lemmas for split pieces -/

theorem mem_of_mem_splitOnPred (p : Char → Bool) (w : List Char) :
    ∀ t ∈ splitOnPred p w, ∀ c ∈ t, c ∈ w := by
  induction w with
  | nil =>
    intro t ht c hc
    simp [splitOnPred] at ht
    subst ht
    simp at hc
  | cons x w ih =>
    intro t ht c hc
    by_cases hx : p x
    · simp only [splitOnPred, hx, if_true, List.mem_cons] at ht
      rcases ht with h1 | h2
      · subst h1; simp at hc
      · exact List.mem_cons_of_mem x (ih t h2 c hc)
    · obtain ⟨l0, ls, he⟩ := List.exists_cons_of_ne_nil (splitOnPred_ne_nil p w)
      simp only [splitOnPred, hx, Bool.false_eq_true, if_false, he, List.mem_cons] at ht
      rcases ht with h1 | h2
      · subst h1
        rcases List.mem_cons.mp hc with h3 | h4
        · subst h3; simp
        · exact List.mem_cons_of_mem x (ih l0 (by simp [he]) c h4)
      · exact List.mem_cons_of_mem x (ih t (by simp [he, h2]) c hc)

theorem mem_drop_of_mem_splitOnPred (p : Char → Bool) (w : List Char) :
    ∀ t ∈ splitOnPred p w, ∀ c ∈ t.drop 1, c ∈ w.drop 1 := by
  induction w with
  | nil =>
    intro t ht c hc
    simp [splitOnPred] at ht
    subst ht
    simp at hc
  | cons x w ih =>
    intro t ht c hc
    by_cases hx : p x
    · simp only [splitOnPred, hx, if_true, List.mem_cons] at ht
      rcases ht with h1 | h2
      · subst h1; simp at hc
      · have hcw := ih t h2 c hc
        simpa using List.drop_subset 1 w hcw
    · obtain ⟨l0, ls, he⟩ := List.exists_cons_of_ne_nil (splitOnPred_ne_nil p w)
      simp only [splitOnPred, hx, Bool.false_eq_true, if_false, he, List.mem_cons] at ht
      rcases ht with h1 | h2
      · subst h1
        simp only [List.drop_one, List.tail_cons] at hc
        simpa using mem_of_mem_splitOnPred p w l0 (by simp [he]) c hc
      · have hcw := ih t (by simp [he, h2]) c hc
        simpa using List.drop_subset 1 w hcw

theorem mem_splitOnPred_joinWith (sep : Char) (p : Char → Bool) (hp : ∀ c, p c = (c == sep))
    (L : List (List Char)) (hne : L ≠ []) :
    ∀ t ∈ splitOnPred p (joinWith sep L), ∃ w ∈ L, t ∈ splitOnPred p w := by
  induction L with
  | nil => exact absurd rfl hne
  | cons l L ih =>
    cases L with
    | nil =>
      intro t ht
      exact ⟨l, by simp, by simpa using ht⟩
    | cons l2 L2 =>
      intro t ht
      rw [joinWith_cons_cons,
        splitOnPred_append_sep p (by rw [hp]; exact beq_self_eq_true sep)] at ht
      rcases List.mem_append.mp ht with h1 | h2
      · exact ⟨l, by simp, h1⟩
      · obtain ⟨w, hw, hw2⟩ := ih (by simp) t h2
        exact ⟨w, List.mem_cons_of_mem l hw, hw2⟩

theorem joinWith_append_nonempty (sep : Char) (L1 L2 : List (List Char))
    (h1 : L1 ≠ []) (h2 : L2 ≠ []) :
    joinWith sep (L1 ++ L2) = joinWith sep L1 ++ sep :: joinWith sep L2 := by
  induction L1 with
  | nil => exact absurd rfl h1
  | cons l L ih =>
    cases L with
    | nil =>
      obtain ⟨x, xs, hx⟩ := List.exists_cons_of_ne_nil h2
      subst hx
      rfl
    | cons l2 L2' =>
      have ihe := ih (by simp)
      show l ++ sep :: joinWith sep ((l2 :: L2') ++ L2) =
        (l ++ sep :: joinWith sep (l2 :: L2')) ++ sep :: joinWith sep L2
      rw [ihe, List.append_assoc]
      rfl

/-! ### Claim theorems C1 - C4 -/

theorem fix_linesAux_of_no_fix (ls : List (List Char)) (h : ∀ l ∈ ls, fix_line l = none) :
    fix_linesAux ls = (ls, false) := by
  induction ls with
  | nil => rfl
  | cons l ls ih =>
    simp only [fix_linesAux, h l (by simp), ih (fun x hx => h x (by simp [hx]))]

/-- C1 (counterexample): a document with no frontmatter block whose single
body line matches the unquoted-title-with-colon pattern is rewritten by
the Quoter, so the Quoter does not operate only on frontmatter lines. -/
theorem C1_counterexample :
    has_frontmatter "title: a: b" = false ∧
    fix_title_in_file "title: a: b" ≠ "title: a: b" := by decide

/-- C1 (amended): the Quoter scans every line of the document, not only
frontmatter lines; a document is left byte-for-byte unchanged exactly
when no line of it is fixable, regardless of whether it has a
frontmatter block.  Proved: if no line of the document is fixable, the
Quoter leaves the document unchanged. -/
theorem C1_quoter_no_match_unchanged (content : String)
    (h : ∀ l ∈ docLines content, fix_line l = none) :
    fix_title_in_file content = content := by
  unfold fix_title_in_file
  rw [fix_linesAux_of_no_fix _ h]
  simp

/-- C1 witness: the amended theorem applied to a frontmatter-less
document with no fixable line. -/
theorem C1_witness :
    (∀ l ∈ docLines "hello\nworld", fix_line l = none) ∧
    fix_title_in_file "hello\nworld" = "hello\nworld" :=
  ⟨by decide, C1_quoter_no_match_unchanged "hello\nworld" (by decide)⟩

/-- C2: neither main loop guards the per-file processing with an
exception handler, so a file whose read raises (undecodable bytes or a
vanished path) aborts the whole batch: in a three-file batch whose second
file fails, the third file is never processed (only one output is
produced) and the abort flag is set. -/
theorem C2_read_failure_aborts_batch :
    addTitlesBatch
        [(⟨"docs", "a"⟩, some "# A\n"), (⟨"docs", "b"⟩, none), (⟨"docs", "c"⟩, some "# C\n")] =
      (["---\ntitle: A\n---\n# A\n"], true) ∧
    fixTitlesBatch [some "x", none, some "title: a: b"] = (["x"], true) := by decide

/-- C3 (counterexample): for the basename `myCool-page` the generated
title is `Mycool Page`, not `MyCool Page`: the interior capital is
lower-cased, contradicting the claim that the remainder of each token is
preserved as-is. -/
theorem C3_counterexample :
    generate_title_from_path ⟨"docs", "myCool-page"⟩ = "Mycool Page" ∧
    generate_title_from_path ⟨"docs", "myCool-page"⟩ ≠ "MyCool Page" := by decide

/-- C3 (amended): each token is rendered with its first character
upper-cased and the remainder lower-cased (Python `str.capitalize`), so
no character of the generated title beyond the first of its
space-separated word is an upper-case ASCII letter. -/
theorem C3_tokens_lowered (p : FPath) :
    ∀ t ∈ splitOnPred (fun c => c == ' ') (generate_title_from_path p).data,
      ∀ c ∈ t.drop 1, isAsciiUpper c = false := by
  intro t ht c hc
  unfold generate_title_from_path at ht
  rw [show (String.mk (joinWith ' '
      ((splitOnPred isSepChar (effectiveBasename p).data).map pyCapitalize))).data =
      joinWith ' ' ((splitOnPred isSepChar (effectiveBasename p).data).map pyCapitalize)
      from rfl] at ht
  have hne : (splitOnPred isSepChar (effectiveBasename p).data).map pyCapitalize ≠ [] := by
    simp [splitOnPred_ne_nil]
  obtain ⟨w, hw, hw2⟩ := mem_splitOnPred_joinWith ' ' _ (fun c => rfl) _ hne t ht
  obtain ⟨w0, _, hw0e⟩ := List.mem_map.mp hw
  subst hw0e
  exact pyCapitalize_drop_one w0 c (mem_drop_of_mem_splitOnPred _ _ t hw2 c hc)

/-- C3 witness: the amended theorem applied to the basename
`myCool-page`, whose first word `Mycool` contains `y` beyond position 0. -/
theorem C3_witness :
    ("Mycool".data ∈
      splitOnPred (fun c => c == ' ') (generate_title_from_path ⟨"docs", "myCool-page"⟩).data) ∧
    ('y' ∈ ("Mycool".data).drop 1) ∧ isAsciiUpper 'y' = false :=
  ⟨by decide, by decide,
    C3_tokens_lowered ⟨"docs", "myCool-page"⟩ "Mycool".data (by decide) 'y' (by decide)⟩

/-- C4 (counterexample): for the basename `a--b` the generated title is
`A  B` with a doubled space: the empty token produced by the consecutive
separators is kept, not dropped. -/
theorem C4_counterexample :
    generate_title_from_path ⟨"docs", "a--b"⟩ = "A  B" ∧
    generate_title_from_path ⟨"docs", "a--b"⟩ ≠ "A B" := by decide

/-- C4 (amended): consecutive separators in the basename produce an
empty token that is kept by the generator, so the generated title
contains two adjacent spaces. -/
theorem C4_double_sep_double_space (p : FPath) (a b : List Char) (s1 s2 : Char)
    (h1 : isSepChar s1 = true) (h2 : isSepChar s2 = true)
    (hb : (effectiveBasename p).data = a ++ s1 :: s2 :: b) :
    ∃ u v, (generate_title_from_path p).data = u ++ ' ' :: ' ' :: v := by
  refine ⟨joinWith ' ' ((splitOnPred isSepChar a).map pyCapitalize),
    joinWith ' ' ((splitOnPred isSepChar b).map pyCapitalize), ?_⟩
  unfold generate_title_from_path
  rw [show (String.mk (joinWith ' '
      ((splitOnPred isSepChar (effectiveBasename p).data).map pyCapitalize))).data =
      joinWith ' ' ((splitOnPred isSepChar (effectiveBasename p).data).map pyCapitalize)
      from rfl]
  rw [hb, splitOnPred_append_sep isSepChar h1]
  have hs2 : splitOnPred isSepChar (s2 :: b) = [] :: splitOnPred isSepChar b := by
    simp [splitOnPred, h2]
  rw [hs2, List.map_append]
  have hA : (splitOnPred isSepChar a).map pyCapitalize ≠ [] := by
    simp [splitOnPred_ne_nil]
  obtain ⟨x, xs, hx⟩ :=
    List.exists_cons_of_ne_nil (show (splitOnPred isSepChar b).map pyCapitalize ≠ [] by
      simp [splitOnPred_ne_nil])
  rw [show (([] : List Char) :: splitOnPred isSepChar b).map pyCapitalize =
      ([] : List Char) :: (splitOnPred isSepChar b).map pyCapitalize from rfl]
  rw [joinWith_append_nonempty ' ' _ _ hA (by simp)]
  rw [hx]
  rw [show joinWith ' ' ([] :: x :: xs) = ' ' :: joinWith ' ' (x :: xs) from rfl]

/-- C4 witness: the amended theorem applied to the basename `a--b`. -/
theorem C4_witness :
    ∃ u v, (generate_title_from_path ⟨"docs", "a--b"⟩).data = u ++ ' ' :: ' ' :: v :=
  C4_double_sep_double_space ⟨"docs", "a--b"⟩ ['a'] ['b'] '-' '-'
    (by decide) (by decide) (by decide)

/-! ### Decomposing a delimited document into its lines -/

theorem findSome?_append {α β : Type} (f : α → Option β) (A B : List α) :
    (A ++ B).findSome? f =
      match A.findSome? f with
      | some x => some x
      | none => B.findSome? f := by
  induction A with
  | nil => simp
  | cons a A ih =>
    cases hf : f a with
    | some x => simp [List.findSome?_cons, hf]
    | none => simp [List.findSome?_cons, hf, ih]

theorem doc_data_decomp (fm B : String) :
    ("---\n" ++ fm ++ "\n---\n" ++ B).data =
      ['-', '-', '-'] ++ '\n' :: (fm.data ++ '\n' :: (['-', '-', '-'] ++ '\n' :: B.data)) := by
  simp [String.data_append, List.append_assoc]

theorem doc_data_decomp2 (fm mid B : String) :
    ("---\n" ++ fm ++ "\n" ++ mid ++ "\n" ++ B).data =
      ['-', '-', '-'] ++ '\n' :: (fm.data ++ '\n' :: (mid.data ++ '\n' :: B.data)) := by
  simp [String.data_append, List.append_assoc]

theorem drop_append_cons {α : Type} (A : List α) (x : α) (B : List α) :
    (A ++ x :: B).drop (A.length + 1) = B := by
  induction A with
  | nil => simp
  | cons a A ih => simp [ih]

/-- The splitter on a well-delimited document whose frontmatter has no
line stripping to `---` and whose closing line strips to `---`: the text
between the delimiters and the text after the closing line are returned
verbatim. -/
theorem extract_frontmatter_of_closed (fm mid body : String)
    (hfm : ∀ l ∈ splitOnPred isNl fm.data, pyStrip l ≠ "---".data)
    (hmid : pyStrip mid.data = "---".data)
    (hnl : ∀ c ∈ mid.data, isNl c = false) :
    extract_frontmatter ("---\n" ++ fm ++ "\n" ++ mid ++ "\n" ++ body) = (fm, body) := by
  have hdata := doc_data_decomp2 fm mid body
  have hhf : has_frontmatter ("---\n" ++ fm ++ "\n" ++ mid ++ "\n" ++ body) = true := by
    unfold has_frontmatter
    rw [hdata]
    exact listStartsWith_append ("---\n".data) _
  have hlines : docLines ("---\n" ++ fm ++ "\n" ++ mid ++ "\n" ++ body) =
      ['-', '-', '-'] :: (splitOnPred isNl fm.data ++ mid.data :: splitOnPred isNl body.data) := by
    unfold docLines
    rw [hdata]
    rw [splitOnPred_append_sep isNl (show isNl '\n' = true from by decide) ['-', '-', '-']]
    rw [splitOnPred_append_sep isNl (show isNl '\n' = true from by decide) fm.data]
    rw [splitOnPred_append_sep isNl (show isNl '\n' = true from by decide) mid.data]
    rw [splitOnPred_no_sep isNl mid.data hnl]
    rfl
  unfold extract_frontmatter
  rw [hlines, hhf]
  simp only [if_true, List.drop_succ_cons, List.drop_zero]
  rw [findClose_found _ _ _ 1 hfm hmid]
  simp only []
  rw [show 1 + (splitOnPred isNl fm.data).length - 1 = (splitOnPred isNl fm.data).length
    from by omega]
  rw [show 1 + (splitOnPred isNl fm.data).length = (splitOnPred isNl fm.data).length + 1
    from by omega]
  rw [List.take_left, drop_append_cons]
  rw [joinWith_splitOnPred '\n' isNl (fun c => rfl) fm.data]
  rw [joinWith_splitOnPred '\n' isNl (fun c => rfl) body.data]

/-! ### Claim theorems C5 - C7 and C10 -/

/-- C5 (counterexample): in a document whose frontmatter contains the
line `# fake` and whose body's first H1 is `# Real Title`, the Title
Inserter resolves the title to `fake` from the frontmatter line, not
`Real Title` from the body: a frontmatter line that looks like an H1 IS
used as the title source. -/
theorem C5_counterexample :
    extract_h1 "# Real Title\n" = some ("Real Title".data) ∧
    resolve_title ⟨"docs", "x"⟩ "---\n# fake\nfoo: bar\n---\n# Real Title\n" = "fake" ∧
    add_title_to_file ⟨"docs", "x"⟩ "---\n# fake\nfoo: bar\n---\n# Real Title\n" =
      "---\ntitle: fake\n# fake\nfoo: bar\n---\n# Real Title\n" := by decide

/-- C5 (amended): `extract_h1` scans the entire document including the
frontmatter block, so the H1 lines of the frontmatter take priority over
the body: on a delimited document the result is the first frontmatter
line matching the H1 pattern when one exists, and only otherwise the
first H1 of the body. -/
theorem C5_h1_from_whole_document (fm body : String) :
    extract_h1 ("---\n" ++ fm ++ "\n---\n" ++ body) =
      match (splitOnPred isNl fm.data).findSome? h1_match with
      | some t => some t
      | none => extract_h1 body := by
  unfold extract_h1 docLines
  rw [doc_data_decomp]
  rw [splitOnPred_append_sep isNl (show isNl '\n' = true from by decide) ['-', '-', '-']]
  rw [splitOnPred_append_sep isNl (show isNl '\n' = true from by decide) fm.data]
  rw [splitOnPred_append_sep isNl (show isNl '\n' = true from by decide) ['-', '-', '-']]
  rw [show splitOnPred isNl ['-', '-', '-'] = [['-', '-', '-']] from rfl]
  rw [findSome?_append, findSome?_append, findSome?_append]
  rw [show (([['-', '-', '-']] : List (List Char)).findSome? h1_match) = none from rfl]
  cases (splitOnPred isNl fm.data).findSome? h1_match <;> rfl

/-- C6 (counterexample): the line `  ---  ` (dashes surrounded by
whitespace) DOES close the frontmatter block, because the code compares
`line.strip()` with `---`. -/
theorem C6_counterexample :
    extract_frontmatter "---\na: b\n  ---  \nbody" = ("a: b", "body") ∧
    extract_frontmatter "---\na: b\n  ---  \nbody" ≠ ("", "---\na: b\n  ---  \nbody") := by decide

/-- C6 (amended): the closing delimiter is the first subsequent line
that equals `---` after stripping leading and trailing whitespace; a
line containing `---` surrounded by whitespace closes the block. -/
theorem C6_stripped_close (fm mid body : String)
    (hfm : ∀ l ∈ splitOnPred isNl fm.data, pyStrip l ≠ "---".data)
    (hmid : pyStrip mid.data = "---".data)
    (hnl : ∀ c ∈ mid.data, isNl c = false) :
    extract_frontmatter ("---\n" ++ fm ++ "\n" ++ mid ++ "\n" ++ body) = (fm, body) :=
  extract_frontmatter_of_closed fm mid body hfm hmid hnl

/-- C6 witness: the amended theorem applied with the whitespace-padded
closing line `  ---  `. -/
theorem C6_witness :
    extract_frontmatter ("---\n" ++ "a: b" ++ "\n" ++ "  ---  " ++ "\n" ++ "body") =
      ("a: b", "body") :=
  C6_stripped_close "a: b" "  ---  " "body" (by decide) (by decide) (by decide)

/-- C7 (counterexample): a document that opens with the delimiter but
never closes it is NOT passed through unchanged: the Title Inserter
wraps a brand-new frontmatter block around it, the dangling delimiter
becoming body text. -/
theorem C7_counterexample :
    add_title_to_file ⟨"docs", "page"⟩ "---\nfoo\n" = "---\ntitle: Page\n---\n---\nfoo\n" ∧
    add_title_to_file ⟨"docs", "page"⟩ "---\nfoo\n" ≠ "---\nfoo\n" := by decide

theorem pyLStrip_of_frontmatter (content : String) (h : has_frontmatter content = true) :
    pyLStrip content = content := by
  obtain ⟨t, ht⟩ := exists_of_listStartsWith h
  unfold pyLStrip
  rw [ht, show ("---\n".data ++ t) = '-' :: ("--\n".data ++ t) from rfl,
    List.dropWhile_cons, if_neg (show ¬(pyIsSpace '-' = true) from by decide)]
  rw [← show ("---\n".data ++ t) = '-' :: ("--\n".data ++ t) from rfl, ← ht]

/-- C7 (amended): a document opening with the delimiter but containing
no closing line is treated as having empty frontmatter and is rewritten
by the Title Inserter: a new frontmatter block holding the resolved
title is wrapped around the entire original content. -/
theorem C7_unclosed_rewritten (p : FPath) (content : String)
    (hop : has_frontmatter content = true)
    (hnc : ∀ l ∈ (docLines content).drop 1, pyStrip l ≠ "---".data) :
    add_title_to_file p content =
      "---\n" ++ ("title: " ++ resolve_title p content) ++ "\n---\n" ++ content := by
  have hext : extract_frontmatter content = ("", content) := by
    unfold extract_frontmatter
    rw [hop]
    simp only [if_true]
    rw [findClose_of_none _ 1 hnc]
  simp only [add_title_to_file, hext]
  rw [show hasTitleKey "" = false from by decide]
  simp only [Bool.false_eq_true, if_false, ne_eq, not_true_eq_false]
  rw [pyLStrip_of_frontmatter content hop]

/-- C7 witness: the amended theorem applied to the dangling document
`---\nfoo\n`. -/
theorem C7_witness :
    add_title_to_file ⟨"docs", "page"⟩ "---\nfoo\n" =
      "---\n" ++ ("title: " ++ resolve_title ⟨"docs", "page"⟩ "---\nfoo\n") ++ "\n---\n" ++
        "---\nfoo\n" :=
  C7_unclosed_rewritten ⟨"docs", "page"⟩ "---\nfoo\n" (by decide) (by decide)

/-- C10 (counterexample): for the document `---\na\n---`, which starts
with the opening delimiter, whose closing line is exactly `---`, and
which has one line strictly between the delimiters, the round-trip
concatenation appends a trailing newline that the original lacks. -/
theorem C10_counterexample :
    extract_frontmatter "---\na\n---" = ("a", "") ∧
    "---\n" ++ (extract_frontmatter "---\na\n---").1 ++ "\n---\n" ++
      (extract_frontmatter "---\na\n---").2 ≠ "---\na\n---" := by decide

/-- C10 (amended): the round-trip holds for every document of the form
opening delimiter, frontmatter lines none of which strip to `---`, exact
closing delimiter line, and a (possibly empty) trailing body after the
closing delimiter's newline: concatenating the delimiters around the
splitter's two results reproduces the document exactly.  The document
must continue past the closing delimiter's newline; a document ending
directly at the closing `---` gains a trailing newline instead. -/
theorem C10_roundtrip (fm body : String)
    (hfm : ∀ l ∈ splitOnPred isNl fm.data, pyStrip l ≠ "---".data) :
    "---\n" ++ (extract_frontmatter ("---\n" ++ fm ++ "\n---\n" ++ body)).1 ++ "\n---\n" ++
      (extract_frontmatter ("---\n" ++ fm ++ "\n---\n" ++ body)).2 =
      "---\n" ++ fm ++ "\n---\n" ++ body := by
  have h1 : ("---\n" ++ fm ++ "\n---\n" ++ body) =
      ("---\n" ++ fm ++ "\n" ++ "---" ++ "\n" ++ body) := by
    apply String.ext
    simp [String.data_append, List.append_assoc]
  rw [h1, extract_frontmatter_of_closed fm "---" body hfm (by decide) (by decide)]
  exact h1

/-- C10 witness: the round-trip at a concrete well-formed document. -/
theorem C10_witness :
    "---\n" ++ (extract_frontmatter ("---\n" ++ "a: 1" ++ "\n---\n" ++ "hello\n")).1 ++
      "\n---\n" ++ (extract_frontmatter ("---\n" ++ "a: 1" ++ "\n---\n" ++ "hello\n")).2 =
      "---\n" ++ "a: 1" ++ "\n---\n" ++ "hello\n" :=
  C10_roundtrip "a: 1" "hello\n" (by decide)

/-! ### Claim C9: the Quoter's single-line rewrite -/

theorem fix_linesAux_first_fix (A : List (List Char)) (L : List Char) (B : List (List Char))
    (l2 : List Char) (hA : ∀ l ∈ A, fix_line l = none) (hL : fix_line L = some l2) :
    fix_linesAux (A ++ L :: B) = (A ++ l2 :: B, true) := by
  induction A with
  | nil => simp [fix_linesAux, hL]
  | cons a A ih =>
    have ihe := ih (fun x hx => hA x (by simp [hx]))
    simp only [List.cons_append, fix_linesAux, hA a (by simp), List.append_eq, ihe]

theorem title_colon_match_quoted (t : List Char) :
    title_colon_match ('t' :: 'i' :: 't' :: 'l' :: 'e' :: ':' :: ' ' :: '"' :: t) = false := by
  simp [title_colon_match, wsThenValue, matchValue, isQuoteChar, pyIsSpace]

theorem fix_line_of_quoted (v : String) :
    fix_line (("title: \"" ++ v ++ "\"").data) = none := by
  rw [show ("title: \"" ++ v ++ "\"").data =
      't' :: 'i' :: 't' :: 'l' :: 'e' :: ':' :: ' ' :: '"' :: (v.data ++ ['"']) from by
    simp [String.data_append, List.append_assoc]]
  simp [fix_line, title_colon_match_quoted]

/-- C9 (counterexample): on a document with two unquoted colon titles the
first run quotes only the first line, but the second run is NOT a no-op:
it quotes the second line. -/
theorem C9_counterexample :
    fix_title_in_file "title: a: b\ntitle: c: d" = "title: \"a: b\"\ntitle: c: d" ∧
    fix_title_in_file (fix_title_in_file "title: a: b\ntitle: c: d") ≠
      fix_title_in_file "title: a: b\ntitle: c: d" := by decide

/-- C9 (amended): the Quoter rewrites exactly the first fixable line to
`title: "<value>"` and changes nothing else; the rewritten line itself
can never match again (its value starts with a quote), so when no other
line of the document is fixable a second application is a no-op. -/
theorem C9_first_match_quoted (A B : List (List Char)) (L : List Char) (v : String)
    (hA : ∀ l ∈ A, fix_line l = none)
    (hB : ∀ l ∈ B, fix_line l = none)
    (hL : fix_line L = some (("title: \"" ++ v ++ "\"").data))
    (hnlA : ∀ l ∈ A, ∀ c ∈ l, isNl c = false)
    (hnlB : ∀ l ∈ B, ∀ c ∈ l, isNl c = false)
    (hnlL : ∀ c ∈ L, isNl c = false)
    (hnlv : ∀ c ∈ v.data, isNl c = false) :
    fix_title_in_file (String.mk (joinWith '\n' (A ++ L :: B))) =
      String.mk (joinWith '\n' (A ++ ("title: \"" ++ v ++ "\"").data :: B)) ∧
    fix_title_in_file (String.mk (joinWith '\n' (A ++ ("title: \"" ++ v ++ "\"").data :: B))) =
      String.mk (joinWith '\n' (A ++ ("title: \"" ++ v ++ "\"").data :: B)) := by
  have hnlNew : ∀ c ∈ ("title: \"" ++ v ++ "\"").data, isNl c = false := by
    intro c hc
    rw [show ("title: \"" ++ v ++ "\"").data =
        "title: \"".data ++ (v.data ++ "\"".data) from by
      simp [String.data_append, List.append_assoc]] at hc
    rcases List.mem_append.mp hc with h1 | h2
    · exact (show ∀ x ∈ "title: \"".data, isNl x = false from by decide) c h1
    · rcases List.mem_append.mp h2 with h3 | h4
      · exact hnlv c h3
      · exact (show ∀ x ∈ "\"".data, isNl x = false from by decide) c h4
  have hfree1 : ∀ l ∈ A ++ L :: B, ∀ c ∈ l, isNl c = false := by
    intro l hl
    rcases List.mem_append.mp hl with h1 | h2
    · exact hnlA l h1
    · rcases List.mem_cons.mp h2 with h3 | h4
      · subst h3; exact hnlL
      · exact hnlB l h4
  have hfree2 : ∀ l ∈ A ++ ("title: \"" ++ v ++ "\"").data :: B, ∀ c ∈ l, isNl c = false := by
    intro l hl
    rcases List.mem_append.mp hl with h1 | h2
    · exact hnlA l h1
    · rcases List.mem_cons.mp h2 with h3 | h4
      · subst h3; exact hnlNew
      · exact hnlB l h4
  constructor
  · unfold fix_title_in_file docLines
    rw [show (String.mk (joinWith '\n' (A ++ L :: B))).data = joinWith '\n' (A ++ L :: B)
      from rfl]
    rw [splitOnPred_joinWith '\n' isNl (fun c => rfl) _ (by simp) hfree1]
    rw [fix_linesAux_first_fix A L B _ hA hL]
    simp
  · unfold fix_title_in_file docLines
    rw [show (String.mk (joinWith '\n' (A ++ ("title: \"" ++ v ++ "\"").data :: B))).data =
      joinWith '\n' (A ++ ("title: \"" ++ v ++ "\"").data :: B) from rfl]
    rw [splitOnPred_joinWith '\n' isNl (fun c => rfl) _ (by simp) hfree2]
    rw [fix_linesAux_of_no_fix _ (by
      intro l hl
      rcases List.mem_append.mp hl with h1 | h2
      · exact hA l h1
      · rcases List.mem_cons.mp h2 with h3 | h4
        · subst h3; exact fix_line_of_quoted v
        · exact hB l h4)]
    simp

/-- C9 witness: the amended theorem applied to the one-line document
`title: a: b`, quoted to `title: "a: b"`. -/
theorem C9_witness :
    fix_title_in_file (String.mk (joinWith '\n' ([] ++ ("title: a: b".data) :: []))) =
      String.mk (joinWith '\n' ([] ++ ("title: \"" ++ "a: b" ++ "\"").data :: [])) ∧
    fix_title_in_file (String.mk (joinWith '\n' ([] ++ ("title: \"" ++ "a: b" ++ "\"").data :: []))) =
      String.mk (joinWith '\n' ([] ++ ("title: \"" ++ "a: b" ++ "\"").data :: [])) :=
  C9_first_match_quoted [] [] ("title: a: b".data) "a: b" (by decide) (by decide)
    (by decide) (by decide) (by decide) (by decide) (by decide)

/-! ### Claim C8: idempotence of the Title Inserter -/

/-- A document reassembled by the inserter - opening delimiter, a
frontmatter block beginning with `title:`, exact closing delimiter, body
- is split by `extract_frontmatter` into a frontmatter whose first line
begins with `title:`, so the `^title:` search succeeds. -/
theorem hasTitleKey_of_reassembled (nf B : String) (X : List Char)
    (hnf : nf.data = "title:".data ++ X) :
    hasTitleKey (extract_frontmatter ("---\n" ++ nf ++ "\n---\n" ++ B)).1 = true := by
  have hdata := doc_data_decomp nf B
  have hhf : has_frontmatter ("---\n" ++ nf ++ "\n---\n" ++ B) = true := by
    unfold has_frontmatter
    rw [hdata]
    exact listStartsWith_append ("---\n".data) _
  obtain ⟨hd, tl, hsX, hN⟩ := splitOnPred_append_no_sep isNl ("title:".data) X (by decide)
  have hlines : docLines ("---\n" ++ nf ++ "\n---\n" ++ B) =
      ['-', '-', '-'] :: ((("title:".data ++ hd) :: tl) ++
        ['-', '-', '-'] :: splitOnPred isNl B.data) := by
    unfold docLines
    rw [hdata]
    rw [splitOnPred_append_sep isNl (show isNl '\n' = true from by decide) ['-', '-', '-']]
    rw [splitOnPred_append_sep isNl (show isNl '\n' = true from by decide) nf.data]
    rw [splitOnPred_append_sep isNl (show isNl '\n' = true from by decide) ['-', '-', '-']]
    rw [hnf, hN]
    rfl
  have hstrip : (pyStrip ("title:".data ++ hd) == "---".data) = false := by
    apply beq_eq_false_iff_ne.mpr
    exact pyStrip_title_ne_dashes hd
  obtain ⟨e, he, h2e⟩ := findClose_exists tl (['-', '-', '-'])
    (splitOnPred isNl B.data) 2 (by decide)
  have hfc : findClose ((("title:".data ++ hd) :: tl) ++
      ['-', '-', '-'] :: splitOnPred isNl B.data) 1 = some e := by
    rw [show ((("title:".data ++ hd) :: tl) ++ ['-', '-', '-'] :: splitOnPred isNl B.data)
        = ("title:".data ++ hd) :: (tl ++ ['-', '-', '-'] :: splitOnPred isNl B.data) from rfl]
    simp only [findClose, hstrip, Bool.false_eq_true, if_false]
    exact he
  have hfreeX : ∀ l ∈ splitOnPred isNl X, ∀ c ∈ l, isNl c = false :=
    mem_splitOnPred_no_sep isNl X
  have hfree0 : ∀ c ∈ ("title:".data ++ hd), isNl c = false := by
    intro c hc
    rcases List.mem_append.mp hc with h1 | h2
    · exact (show ∀ x ∈ "title:".data, isNl x = false from by decide) c h1
    · exact hfreeX hd (by rw [hsX]; simp) c h2
  have hfreeT : ∀ l ∈ List.take (e - 2) (tl ++ ['-', '-', '-'] :: splitOnPred isNl B.data),
      ∀ c ∈ l, isNl c = false := by
    intro l hl c hc
    have hl2 := List.take_subset _ _ hl
    rcases List.mem_append.mp hl2 with h1 | h2
    · exact hfreeX l (by rw [hsX]; simp [h1]) c hc
    · rcases List.mem_cons.mp h2 with h3 | h4
      · subst h3
        exact (show ∀ x ∈ ['-', '-', '-'], isNl x = false from by decide) c hc
      · exact mem_splitOnPred_no_sep isNl B.data l h4 c hc
  unfold extract_frontmatter
  rw [hhf]
  simp only [if_true]
  rw [hlines]
  simp only [List.drop_one, List.tail_cons]
  rw [hfc]
  show hasTitleKey (String.mk (joinWith '\n' (List.take (e - 1)
      (("title:".data ++ hd) :: (tl ++ ['-', '-', '-'] :: splitOnPred isNl B.data))))) = true
  rw [show e - 1 = e - 2 + 1 from by omega]
  rw [List.take_succ_cons]
  show (splitOnPred isNl (joinWith '\n' (("title:".data ++ hd) ::
      List.take (e - 2) (tl ++ ['-', '-', '-'] :: splitOnPred isNl B.data)))).any
      (fun l => listStartsWith "title:".data l) = true
  rw [splitOnPred_joinWith '\n' isNl (fun c => rfl) _ (by simp) (by
    intro l hl
    rcases List.mem_cons.mp hl with h1 | h2
    · subst h1; exact hfree0
    · exact hfreeT l h2)]
  simp only [List.any_cons, Bool.or_eq_true, List.any_eq_true]
  exact Or.inl (listStartsWith_append ("title:".data) hd)

/-- C8: the Title Inserter is idempotent: a second application of the
transform always takes the `title already exists` skip branch and
returns its input unchanged. -/
theorem C8_inserter_idempotent (p : FPath) (content : String) :
    add_title_to_file p (add_title_to_file p content) = add_title_to_file p content := by
  by_cases h : hasTitleKey (extract_frontmatter content).1 = true
  · have h1 : add_title_to_file p content = content := by
      simp only [add_title_to_file, h, if_true]
    simp only [h1]
  · rw [Bool.not_eq_true] at h
    have h1 : add_title_to_file p content =
        "---\n" ++ (if (extract_frontmatter content).1 ≠ "" then
            "title: " ++ resolve_title p content ++ "\n" ++ (extract_frontmatter content).1
          else "title: " ++ resolve_title p content) ++ "\n---\n" ++
          pyLStrip (extract_frontmatter content).2 := by
      simp only [add_title_to_file, h, Bool.false_eq_true, if_false]
    have hX : ∃ X, (if (extract_frontmatter content).1 ≠ "" then
        "title: " ++ resolve_title p content ++ "\n" ++ (extract_frontmatter content).1
      else "title: " ++ resolve_title p content).data = "title:".data ++ X := by
      by_cases hfm : (extract_frontmatter content).1 ≠ ""
      · rw [if_pos hfm]
        refine ⟨(" " ++ resolve_title p content ++ "\n" ++ (extract_frontmatter content).1).data, ?_⟩
        simp [String.data_append, List.append_assoc]
      · rw [if_neg hfm]
        refine ⟨(" " ++ resolve_title p content).data, ?_⟩
        simp [String.data_append, List.append_assoc]
    obtain ⟨X, hX⟩ := hX
    have hkey := hasTitleKey_of_reassembled _ (pyLStrip (extract_frontmatter content).2) X hX
    rw [h1]
    simp only [add_title_to_file, hkey, if_true]

example : generate_title_from_path ⟨"docs", "myCool-page"⟩ = "Mycool Page" := by decide
example : generate_title_from_path ⟨"docs", "a--b"⟩ = "A  B" := by decide
example : generate_title_from_path ⟨"guides", "index"⟩ = "Guides" := by decide
example : extract_h1 "hello\n# A Title \nrest" = some "A Title".data := by decide
example : extract_frontmatter "---\na: b\n  ---  \nbody" = ("a: b", "body") := by decide
example : extract_frontmatter "---\nfoo\n" = ("", "---\nfoo\n") := by decide
example : add_title_to_file ⟨"docs", "page"⟩ "---\nfoo: bar\n---\n\n# Hello World\n\ntext" =
    "---\ntitle: Hello World\nfoo: bar\n---\n# Hello World\n\ntext" := by decide
example : fix_title_in_file "title: Part One: The Beginning" =
    "title: \"Part One: The Beginning\"" := by decide
example : fix_title_in_file "title: \"Already: Quoted\"" = "title: \"Already: Quoted\"" := by decide
example : fix_title_in_file "title: a: b" = "title: \"a: b\"" := by decide
example : fix_title_in_file (fix_title_in_file "title: a: b\ntitle: c: d") =
    "title: \"a: b\"\ntitle: \"c: d\"" := by decide
